import Mathlib

/-!
Shallow embedding of the Substrate name-service pallet
(src/frame/name-service/src/lib.rs) together with theorems checking the
natural-language specification against it.

Modelling conventions:
* `blake2_256` is modelled as the free term algebra over the three input
  shapes the pallet feeds it (raw bytes, the SCALE encoding of a
  `(Vec<u8>, u64)` pair, and the concatenation of two 32-byte hashes),
  idealising collision resistance: distinct inputs give distinct hashes.
* `Balance` is `u128` and `BlockNumber` is `u32` (the standard runtime
  instantiations), modelled as `Nat` with explicit saturation at the
  type's maximum, mirroring the pallet's `saturating_add`/`saturating_mul`.
* Storage maps are association lists with insert-replace semantics.
-/

namespace NameService

/-- Free model of blake2_256 over the input shapes the pallet uses:
`blakeBytes bs` stands for `blake2_256(bs)` of raw bytes, `blakePair n s`
for `blake2_256((n, s).encode())`, and `blakeConcat a b` for
`blake2_256([a, b].concat())` of two 32-byte hashes. -/
inductive Hash32 where
  | blakeBytes (bs : List Nat)
  | blakePair (name : List Nat) (secret : Nat)
  | blakeConcat (a b : Hash32)
deriving DecidableEq

abbrev AccountId := Nat
abbrev Balance := Nat
abbrev BlockNumber := Nat

/-- Maximum value of the `u128` balance type. -/
def balanceMax : Nat := 2 ^ 128 - 1

/-- Maximum value of the `u32` block-number type. -/
def blockMax : Nat := 2 ^ 32 - 1

/-- Saturating addition, clamping at `m`. -/
def satAdd (m a b : Nat) : Nat := min (a + b) m

/-- Saturating multiplication, clamping at `m`. -/
def satMul (m a b : Nat) : Nat := min (a * b) m

/-- `Commitment` storage value. -/
structure Commitment where
  who : AccountId
  when : BlockNumber
  deposit : Balance
deriving DecidableEq

/-- `Registration` storage value. -/
structure Registration where
  owner : AccountId
  registrant : AccountId
  expiry : BlockNumber
  deposit : Balance
deriving DecidableEq

/-- `SubNameRegistration` storage value. -/
structure SubNameRegistration where
  hash : Hash32
  owner : AccountId
  registrant : AccountId
deriving DecidableEq

/-- Lookup in an association-list storage map. -/
def findKV {K V : Type} [DecidableEq K] : List (K × V) → K → Option V
  | [], _ => none
  | (k', v) :: rest, k => if k' = k then some v else findKV rest k

/-- Remove a key from an association-list storage map. -/
def eraseKV {K V : Type} [DecidableEq K] : List (K × V) → K → List (K × V)
  | [], _ => []
  | (k', v) :: rest, k =>
    if k' = k then eraseKV rest k else (k', v) :: eraseKV rest k

/-- Insert (or overwrite) a key in an association-list storage map. -/
def insertKV {K V : Type} [DecidableEq K] (m : List (K × V)) (k : K) (v : V) :
    List (K × V) :=
  (k, v) :: eraseKV m k

/-- Values of the double map stored under a first key, as in
`iter_prefix_values`. -/
def valuesUnder {V : Type} : List ((Hash32 × Hash32) × V) → Hash32 → List V
  | [], _ => []
  | (k, v) :: rest, p =>
    if k.1 = p then v :: valuesUnder rest p else valuesUnder rest p

/-- Remove every double-map entry under a first key, as in
`remove_prefix(p, None)`. -/
def removeUnder {V : Type} :
    List ((Hash32 × Hash32) × V) → Hash32 → List ((Hash32 × Hash32) × V)
  | [], _ => []
  | (k, v) :: rest, p =>
    if k.1 = p then removeUnder rest p else (k, v) :: removeUnder rest p

/-- Runtime configuration: the pallet's `Config` associated constants. -/
structure Config where
  controllersOnly : Bool
  controllerAccounts : List AccountId
  commitmentDeposit : Balance
  nameDeposit : Balance
  tierThreeLetters : Balance
  tierFourLetters : Balance
  tierDefault : Balance
  blocksPerRegistrationPeriod : BlockNumber
  minimumRegistrationPeriods : Nat
  feePerRegistrationPeriod : Balance
deriving DecidableEq

/-- Dispatch errors: the pallet's `Error` enum, plus `InsufficientBalance`
propagated from the currency collaborator and `BadOrigin` from a failed
origin check. -/
inductive Error where
  | AlreadyCommitted
  | CommitmentNotFound
  | RegistrationPeriodTooShort
  | AlreadyRegistered
  | RegistrationNotFound
  | NotRegistrationOwner
  | ResolverNotFound
  | RegistrationExpired
  | RegistrationNotExpired
  | SubNameAlreadyRegistered
  | NotControllerAccount
  | ConversionError
  | InsufficientBalance
  | BadOrigin
deriving DecidableEq

/-- Full observable state: the four storage maps of the pallet, the ledger
collaborator's balances, the fee sink, and the current block number. -/
structure State where
  commitments : List (Hash32 × Commitment)
  registrations : List (Hash32 × Registration)
  subNameRegistrations : List ((Hash32 × Hash32) × SubNameRegistration)
  resolvers : List (Hash32 × AccountId)
  free : List (AccountId × Balance)
  reserved : List (AccountId × Balance)
  feeSink : Balance
  now : BlockNumber
deriving DecidableEq

/-- Free balance of an account (absent accounts hold zero). -/
def getBal (m : List (AccountId × Balance)) (a : AccountId) : Balance :=
  (findKV m a).getD 0

/-- Modelled from the spec: the ledger collaborator's
`withdraw(identity, amount, reason) -> Result<Credit, InsufficientBalance>`
(spec section 6); the `Currency` implementation is not under src/. -/
def withdraw (st : State) (who : AccountId) (amount : Balance) :
    Except Error (State × Balance) :=
  let b := getBal st.free who
  if amount ≤ b then
    .ok ({ st with free := insertKV st.free who (b - amount) }, amount)
  else
    .error .InsufficientBalance

/-- Modelled from the spec: the ledger collaborator's
`reserve(identity, amount) -> Result<(), InsufficientBalance>`
(spec section 6); the `Currency` implementation is not under src/. -/
def reserve (st : State) (who : AccountId) (amount : Balance) :
    Except Error State :=
  let b := getBal st.free who
  if amount ≤ b then
    .ok { st with
      free := insertKV st.free who (b - amount),
      reserved :=
        insertKV st.reserved who
          (satAdd balanceMax (getBal st.reserved who) amount) }
  else
    .error .InsufficientBalance

/-- Modelled from the spec: the fee-sink collaborator `onUnbalanced(credit)`
(spec section 6); `RegistrationFeeHandler` is not under src/. -/
def onUnbalanced (st : State) (credit : Balance) : State :=
  { st with feeSink := satAdd balanceMax st.feeSink credit }

/-- `Pallet::length_fee`: `FeePerRegistrationPeriod.saturating_mul(periods)`. -/
def length_fee (cfg : Config) (periods : Nat) : Balance :=
  satMul balanceMax cfg.feePerRegistrationPeriod periods

/-- `Pallet::registration_fee`: tier fee by raw name byte length (length
under 3 gets the exorbitant `max_value` sentinel), plus the length fee. -/
def registration_fee (cfg : Config) (name : List Nat) (periods : Nat) :
    Balance :=
  let fee_reg :=
    if name.length < 3 then balanceMax
    else if name.length = 3 then cfg.tierThreeLetters
    else if name.length = 4 then cfg.tierFourLetters
    else cfg.tierDefault
  satAdd balanceMax fee_reg (length_fee cfg periods)

/-- `Pallet::length`: `periods.saturating_mul(BlocksPerRegistrationPeriod)`. -/
def length (cfg : Config) (periods : Nat) : BlockNumber :=
  satMul blockMax periods cfg.blocksPerRegistrationPeriod

/-- `Pallet::is_available`: a name hash is available iff it has no
registration or the registration's expiry is at or before `block_number`. -/
def is_available (st : State) (name_hash : Hash32)
    (block_number : BlockNumber) : Bool :=
  match findKV st.registrations name_hash with
  | some r => r.expiry ≤ block_number
  | none => true

/-- `Pallet::generate_sub_name_hash`: blake2_256 of the two concatenated
32-byte hashes. -/
def generate_sub_name_hash (name_hash label_hash : Hash32) : Hash32 :=
  Hash32.blakeConcat name_hash label_hash

/-- `Pallet::do_register`: unconditionally insert a registration with
`owner = registrant = who` and `expiry = now + length(periods)`
(saturating). -/
def do_register (cfg : Config) (st : State) (name_hash : Hash32)
    (who : AccountId) (deposit : Balance) (periods : Nat) : State :=
  let expiry := satAdd blockMax st.now (length cfg periods)
  { st with
    registrations :=
      insertKV st.registrations name_hash
        { owner := who, registrant := who, expiry := expiry,
          deposit := deposit } }

/-- `Pallet::do_set_address`: unconditionally insert a resolver entry. -/
def do_set_address (st : State) (name_hash : Hash32) (address : AccountId) :
    State :=
  { st with resolvers := insertKV st.resolvers name_hash address }

/-- `Pallet::do_deregister`: expiry-gated removal of a registration, its
resolver entry, every sub-registration under it and each of their stored
resolver hashes. -/
def do_deregister (st : State) (name_hash : Hash32) : Except Error State :=
  match findKV st.registrations name_hash with
  | none => .error .RegistrationNotFound
  | some r =>
    if ¬ (r.expiry ≤ st.now) then .error .RegistrationNotExpired
    else
      let st1 := { st with
        registrations := eraseKV st.registrations name_hash }
      let st2 := { st1 with resolvers := eraseKV st1.resolvers name_hash }
      let subs := valuesUnder st2.subNameRegistrations name_hash
      let st3 := { st2 with
        resolvers :=
          subs.foldl (fun rs (sr : SubNameRegistration) => eraseKV rs sr.hash) st2.resolvers }
      .ok { st3 with
        subNameRegistrations :=
          removeUnder st3.subNameRegistrations name_hash }

/-- `Pallet::do_register_sub_name`: create a sub-registration snapshotting
the parent registration's owner, failing if the key already exists. -/
def do_register_sub_name (st : State) (name_hash : Hash32) (label : List Nat)
    (registration : Registration) : Except Error State :=
  let label_hash := Hash32.blakeBytes label
  let sub_name_hash := generate_sub_name_hash name_hash label_hash
  if (findKV st.subNameRegistrations (name_hash, label_hash)).isSome then
    .error .SubNameAlreadyRegistered
  else
    .ok { st with
      subNameRegistrations :=
        insertKV st.subNameRegistrations (name_hash, label_hash)
          { hash := sub_name_hash, owner := registration.owner,
            registrant := registration.owner } }

/-- `Pallet::do_deregister_sub_name`: remove a sub-registration and the
resolver entry of its derived sub-name hash. -/
def do_deregister_sub_name (st : State) (name_hash label_hash : Hash32) :
    Except Error State :=
  match findKV st.subNameRegistrations (name_hash, label_hash) with
  | none => .error .RegistrationNotFound
  | some _ =>
    let sub_name_hash := generate_sub_name_hash name_hash label_hash
    .ok { st with
      subNameRegistrations :=
        eraseKV st.subNameRegistrations (name_hash, label_hash),
      resolvers := eraseKV st.resolvers sub_name_hash }

/-- `Pallet::do_set_sub_name_address`: insert a resolver entry for the
derived sub-name hash. -/
def do_set_sub_name_address (st : State) (name_hash label_hash : Hash32)
    (address : AccountId) : State :=
  let sub_name_hash := generate_sub_name_hash name_hash label_hash
  { st with resolvers := insertKV st.resolvers sub_name_hash address }

/-- Body of the `commit` dispatchable. -/
def commitInner (cfg : Config) (st : State) (sender who : AccountId)
    (commitment_hash : Hash32) : Except Error State :=
  if cfg.controllersOnly ∧ sender ∉ cfg.controllerAccounts then
    .error .NotControllerAccount
  else if (findKV st.commitments commitment_hash).isSome then
    .error .AlreadyCommitted
  else do
    let deposit := cfg.commitmentDeposit
    let st1 ← reserve st sender deposit
    .ok { st1 with
      commitments :=
        insertKV st1.commitments commitment_hash
          { who := who, when := st.now, deposit := deposit } }

/-- Body of the `reveal` dispatchable. -/
def revealInner (cfg : Config) (st : State) (sender : AccountId)
    (name : List Nat) (secret : Nat) (periods : Nat) : Except Error State :=
  let commitment_hash := Hash32.blakePair name secret
  match findKV st.commitments commitment_hash with
  | none => .error .CommitmentNotFound
  | some commitment =>
    let name_hash := Hash32.blakeBytes name
    let st1 := { st with commitments := eraseKV st.commitments commitment_hash }
    if ¬ (periods > cfg.minimumRegistrationPeriods) then
      .error .RegistrationPeriodTooShort
    else if is_available st1 name_hash st1.now then do
      let fee := registration_fee cfg name periods
      let (st2, credit) ← withdraw st1 sender fee
      let st3 := onUnbalanced st2 credit
      let deposit : Balance := 0
      .ok (do_register cfg st3 name_hash commitment.who deposit periods)
    else
      if (findKV st1.registrations name_hash).isSome then
        .error .AlreadyRegistered
      else
        .ok st1

/-- Body of the `transfer` dispatchable. -/
def transferInner (st : State) (sender dest : AccountId) (name_hash : Hash32) :
    Except Error State :=
  match findKV st.registrations name_hash with
  | none => .error .RegistrationNotFound
  | some r =>
    if r.owner ≠ sender then .error .NotRegistrationOwner
    else if ¬ (r.expiry > st.now) then .error .RegistrationExpired
    else
      .ok { st with
        registrations :=
          insertKV st.registrations name_hash { r with owner := dest } }

/-- Body of the `renew` dispatchable. -/
def renewInner (cfg : Config) (st : State) (sender : AccountId)
    (name_hash : Hash32) (periods : Nat) : Except Error State :=
  match findKV st.registrations name_hash with
  | none => .error .RegistrationNotFound
  | some r => do
    let fee := length_fee cfg periods
    let (st1, credit) ← withdraw st sender fee
    let expiry_new :=
      if r.expiry > st1.now then satAdd blockMax r.expiry (length cfg periods)
      else satAdd blockMax st1.now (length cfg periods)
    let st2 := { st1 with
      registrations :=
        insertKV st1.registrations name_hash { r with expiry := expiry_new } }
    .ok (onUnbalanced st2 credit)

/-- Body of the `set_address` dispatchable. -/
def setAddressInner (st : State) (sender : AccountId) (name_hash : Hash32)
    (address : AccountId) : Except Error State :=
  match findKV st.registrations name_hash with
  | none => .error .RegistrationNotFound
  | some r =>
    if r.owner ≠ sender then .error .NotRegistrationOwner
    else if ¬ (r.expiry > st.now) then .error .RegistrationExpired
    else .ok (do_set_address st name_hash address)

/-- Body of the `deregister` dispatchable (the sender is unused). -/
def deregisterInner (st : State) (_sender : AccountId) (name_hash : Hash32) :
    Except Error State :=
  do_deregister st name_hash

/-- Body of the `register_sub_name` dispatchable. -/
def registerSubNameInner (st : State) (sender : AccountId)
    (name_hash : Hash32) (label : List Nat) : Except Error State :=
  match findKV st.registrations name_hash with
  | none => .error .RegistrationNotFound
  | some r =>
    if r.owner ≠ sender then .error .NotRegistrationOwner
    else do_register_sub_name st name_hash label r

/-- Body of the `set_sub_name_address` dispatchable. -/
def setSubNameAddressInner (st : State) (sender : AccountId)
    (name_hash label_hash : Hash32) (address : AccountId) :
    Except Error State :=
  match findKV st.registrations name_hash with
  | none => .error .RegistrationNotFound
  | some r =>
    if r.owner ≠ sender then .error .NotRegistrationOwner
    else if ¬ (r.expiry > st.now) then .error .RegistrationExpired
    else .ok (do_set_sub_name_address st name_hash label_hash address)

/-- Body of the `deregister_sub_name` dispatchable. -/
def deregisterSubNameInner (st : State) (sender : AccountId)
    (name_hash label_hash : Hash32) : Except Error State :=
  match findKV st.registrations name_hash with
  | none => .error .RegistrationNotFound
  | some r =>
    if r.owner ≠ sender then .error .NotRegistrationOwner
    else do_deregister_sub_name st name_hash label_hash

/-- Body of the `force_register` dispatchable; `privileged` is the outcome
of `RegistrationManager::ensure_origin` (an external access-policy
collaborator, spec section 6). -/
def forceRegisterInner (cfg : Config) (st : State) (privileged : Bool)
    (name_hash : Hash32) (who : AccountId) (periods : Nat) :
    Except Error State :=
  if ¬ privileged then .error .BadOrigin
  else
    let deposit : Balance := 0
    .ok (do_register cfg st name_hash who deposit periods)

/-- Modelled from the spec: the frame transactional dispatch layer (not
under src/) makes every operation all-or-nothing; on error all stores are
left as they were (spec section 7). -/
def transact (st : State) (r : Except Error State) :
    Except Error Unit × State :=
  match r with
  | .ok st' => (.ok (), st')
  | .error e => (.error e, st)

/-- The `commit` dispatchable as observed by callers. -/
def commit (cfg : Config) (st : State) (sender who : AccountId)
    (commitment_hash : Hash32) : Except Error Unit × State :=
  transact st (commitInner cfg st sender who commitment_hash)

/-- The `reveal` dispatchable as observed by callers. -/
def reveal (cfg : Config) (st : State) (sender : AccountId) (name : List Nat)
    (secret : Nat) (periods : Nat) : Except Error Unit × State :=
  transact st (revealInner cfg st sender name secret periods)

/-- The `transfer` dispatchable as observed by callers. -/
def transfer (st : State) (sender dest : AccountId) (name_hash : Hash32) :
    Except Error Unit × State :=
  transact st (transferInner st sender dest name_hash)

/-- The `renew` dispatchable as observed by callers. -/
def renew (cfg : Config) (st : State) (sender : AccountId)
    (name_hash : Hash32) (periods : Nat) : Except Error Unit × State :=
  transact st (renewInner cfg st sender name_hash periods)

/-- The `set_address` dispatchable as observed by callers. -/
def set_address (st : State) (sender : AccountId) (name_hash : Hash32)
    (address : AccountId) : Except Error Unit × State :=
  transact st (setAddressInner st sender name_hash address)

/-- The `deregister` dispatchable as observed by callers. -/
def deregister (st : State) (sender : AccountId) (name_hash : Hash32) :
    Except Error Unit × State :=
  transact st (deregisterInner st sender name_hash)

/-- The `register_sub_name` dispatchable as observed by callers. -/
def register_sub_name (st : State) (sender : AccountId) (name_hash : Hash32)
    (label : List Nat) : Except Error Unit × State :=
  transact st (registerSubNameInner st sender name_hash label)

/-- The `set_sub_name_address` dispatchable as observed by callers. -/
def set_sub_name_address (st : State) (sender : AccountId)
    (name_hash label_hash : Hash32) (address : AccountId) :
    Except Error Unit × State :=
  transact st (setSubNameAddressInner st sender name_hash label_hash address)

/-- The `deregister_sub_name` dispatchable as observed by callers. -/
def deregister_sub_name (st : State) (sender : AccountId)
    (name_hash label_hash : Hash32) : Except Error Unit × State :=
  transact st (deregisterSubNameInner st sender name_hash label_hash)

/-- The `force_register` dispatchable as observed by callers. -/
def force_register (cfg : Config) (st : State) (privileged : Bool)
    (name_hash : Hash32) (who : AccountId) (periods : Nat) :
    Except Error Unit × State :=
  transact st (forceRegisterInner cfg st privileged name_hash who periods)

/-- One public operation of the pallet together with its arguments. -/
inductive Call where
  | commit (who : AccountId) (commitment_hash : Hash32)
  | reveal (name : List Nat) (secret : Nat) (periods : Nat)
  | transfer (dest : AccountId) (name_hash : Hash32)
  | renew (name_hash : Hash32) (periods : Nat)
  | set_address (name_hash : Hash32) (address : AccountId)
  | deregister (name_hash : Hash32)
  | register_sub_name (name_hash : Hash32) (label : List Nat)
  | set_sub_name_address (name_hash label_hash : Hash32)
      (address : AccountId)
  | deregister_sub_name (name_hash label_hash : Hash32)
  | force_register (privileged : Bool) (name_hash : Hash32)
      (who : AccountId) (periods : Nat)

/-- Dispatch of any public operation. -/
def dispatch (cfg : Config) (st : State) (sender : AccountId) :
    Call → Except Error Unit × State
  | .commit who commitment_hash => commit cfg st sender who commitment_hash
  | .reveal name secret periods => reveal cfg st sender name secret periods
  | .transfer dest name_hash => transfer st sender dest name_hash
  | .renew name_hash periods => renew cfg st sender name_hash periods
  | .set_address name_hash address => set_address st sender name_hash address
  | .deregister name_hash => deregister st sender name_hash
  | .register_sub_name name_hash label =>
      register_sub_name st sender name_hash label
  | .set_sub_name_address name_hash label_hash address =>
      set_sub_name_address st sender name_hash label_hash address
  | .deregister_sub_name name_hash label_hash =>
      deregister_sub_name st sender name_hash label_hash
  | .force_register privileged name_hash who periods =>
      force_register cfg st privileged name_hash who periods

/-- Sample raw name of byte length 5 ("alice"). -/
def nm5 : List Nat := [97, 108, 105, 99, 101]

/-- Sample raw name of byte length 3 ("www"). -/
def nm3 : List Nat := [119, 119, 119]

/-- Sample raw name of byte length 4 ("wiki"). -/
def nm4 : List Nat := [119, 105, 107, 105]

/-- Sample raw name of byte length 2 ("hi"). -/
def nm2 : List Nat := [104, 105]

/-- Name hash of `nm5`. -/
def hA : Hash32 := Hash32.blakeBytes nm5

/-- Commitment hash of `(nm5, 42)`. -/
def chA : Hash32 := Hash32.blakePair nm5 42

/-- Label hash of `nm3`. -/
def lhB : Hash32 := Hash32.blakeBytes nm3

/-- Derived sub-name hash of `(hA, lhB)`. -/
def shB : Hash32 := Hash32.blakeConcat hA lhB

/-- Sample runtime configuration. -/
def cfgA : Config :=
  { controllersOnly := false, controllerAccounts := [],
    commitmentDeposit := 5, nameDeposit := 1, tierThreeLetters := 30,
    tierFourLetters := 20, tierDefault := 10,
    blocksPerRegistrationPeriod := 100, minimumRegistrationPeriods := 1,
    feePerRegistrationPeriod := 2 }

/-- Sample state: a commitment for `(nm5, 42)` and a live registration of
`nm5` owned by account 3 (`expiry = 10 > now = 5`); account 1 holds funds. -/
def stC1 : State :=
  { commitments := [(chA, { who := 2, when := 0, deposit := 5 })],
    registrations :=
      [(hA, { owner := 3, registrant := 3, expiry := 10, deposit := 0 })],
    subNameRegistrations := [], resolvers := [],
    free := [(1, 1000)], reserved := [], feeSink := 0, now := 5 }

/-- Sample state: a commitment for `(nm5, 42)` and no registration of
`nm5`; account 1 holds funds. -/
def stAvail : State := { stC1 with registrations := [] }

/-- Sample state: an expired registration of `nm5` (`expiry = 4 <= now = 5`)
with a sub-name under it and resolver entries for both. -/
def stExp : State :=
  { commitments := [],
    registrations :=
      [(hA, { owner := 3, registrant := 3, expiry := 4, deposit := 0 })],
    subNameRegistrations :=
      [((hA, lhB), { hash := shB, owner := 3, registrant := 3 })],
    resolvers := [(hA, 8), (shB, 9)],
    free := [(1, 1000)], reserved := [], feeSink := 0, now := 5 }

theorem findKV_insert {K V : Type} [DecidableEq K] (m : List (K × V))
    (j k : K) (v : V) :
    findKV (insertKV m j v) k = if j = k then some v else findKV m k := by
  induction m with
  | nil => simp [insertKV, eraseKV, findKV]
  | cons p rest ih =>
    obtain ⟨a, w⟩ := p
    by_cases haj : a = j
    · subst haj
      simp only [insertKV, eraseKV, if_pos rfl] at ih ⊢
      by_cases hak : a = k
      · subst hak; simp [findKV, ih]
      · simpa [findKV, hak] using ih
    · by_cases hak : a = k
      · subst hak
        have hjk : ¬ j = a := fun h => haj h.symm
        simp [insertKV, eraseKV, findKV, haj, hjk]
      · simp only [insertKV, eraseKV, if_neg haj] at ih ⊢
        simp [findKV, hak] at ih ⊢
        simpa [findKV, hak] using ih

theorem findKV_erase {K V : Type} [DecidableEq K] (m : List (K × V))
    (j k : K) :
    findKV (eraseKV m j) k = if j = k then none else findKV m k := by
  induction m with
  | nil => simp [eraseKV, findKV]
  | cons p rest ih =>
    obtain ⟨a, w⟩ := p
    by_cases haj : a = j
    · subst haj
      by_cases hak : a = k
      · subst hak; simp [eraseKV, findKV, ih]
      · simp [eraseKV, findKV, hak, ih]
    · by_cases hak : a = k
      · subst hak
        have hjk : ¬ j = a := fun h => haj h.symm
        simp [eraseKV, findKV, haj, hjk]
      · simp [eraseKV, findKV, haj, hak, ih]

theorem findKV_removeUnder {V : Type} (m : List ((Hash32 × Hash32) × V))
    (p : Hash32) (k : Hash32 × Hash32) :
    findKV (removeUnder m p) k =
      if k.1 = p then none else findKV m k := by
  induction m with
  | nil => simp [removeUnder, findKV]
  | cons q rest ih =>
    obtain ⟨a, w⟩ := q
    by_cases hap : a.1 = p
    · by_cases hak : a = k
      · subst hak
        simp [removeUnder, findKV, hap, ih]
      · simp [removeUnder, findKV, hap, hak, ih]
    · by_cases hak : a = k
      · subst hak
        simp [removeUnder, findKV, hap, ih]
      · simp [removeUnder, findKV, hap, hak, ih]

theorem mem_valuesUnder_of_findKV {V : Type}
    (m : List ((Hash32 × Hash32) × V)) (p l : Hash32) (v : V)
    (h : findKV m (p, l) = some v) : v ∈ valuesUnder m p := by
  induction m with
  | nil => simp [findKV] at h
  | cons q rest ih =>
    obtain ⟨a, w⟩ := q
    by_cases hak : a = (p, l)
    · subst hak
      have hw : w = v := by simpa [findKV] using h
      subst hw
      simp [valuesUnder]
    · simp only [findKV, if_neg hak] at h
      by_cases hap : a.1 = p
      · simp only [valuesUnder, if_pos hap, List.mem_cons]
        exact Or.inr (ih h)
      · simpa [valuesUnder, hap] using ih h

theorem findKV_foldlErase_of_none
    (l : List SubNameRegistration) (rs : List (Hash32 × AccountId))
    (k : Hash32) (h : findKV rs k = none) :
    findKV
      (l.foldl (fun rs (sr : SubNameRegistration) => eraseKV rs sr.hash) rs)
      k = none := by
  induction l generalizing rs with
  | nil => simpa [List.foldl] using h
  | cons sr rest ih =>
    simp only [List.foldl]
    apply ih
    rw [findKV_erase]
    split <;> simp [h]

theorem findKV_foldlErase_of_mem
    (l : List SubNameRegistration) (rs : List (Hash32 × AccountId))
    (sr : SubNameRegistration) (h : sr ∈ l) :
    findKV
      (l.foldl (fun rs (sr : SubNameRegistration) => eraseKV rs sr.hash) rs)
      sr.hash = none := by
  induction l generalizing rs with
  | nil => simp at h
  | cons a rest ih =>
    simp only [List.foldl]
    rcases List.mem_cons.mp h with hEq | hMem
    · subst hEq
      apply findKV_foldlErase_of_none
      rw [findKV_erase]
      simp
    · exact ih _ hMem

theorem transact_error_eq (st : State) (r : Except Error State) (e : Error)
    (h : (transact st r).1 = .error e) : (transact st r).2 = st := by
  cases r <;> simp_all [transact]

theorem transact_ok (st : State) (r : Except Error State)
    (h : (transact st r).1 = .ok ()) :
    r = .ok (transact st r).2 := by
  cases r <;> simp_all [transact]

/-- C10: `force_register` with a privileged origin performs no availability
check and charges no fee: for every state and every name hash — including
one holding an unexpired registration owned by a different identity — it
unconditionally overwrites the registration for that hash with
`owner = registrant = who`, `deposit = 0` and
`expiry = now + length(periods)` (saturating), leaving every other
registration, all other stores, and all balances untouched. -/
theorem force_register_overwrites (cfg : Config) (st : State)
    (name_hash : Hash32) (who : AccountId) (periods : Nat) :
    (force_register cfg st true name_hash who periods).1 = .ok () ∧
    findKV
        (force_register cfg st true name_hash who periods).2.registrations
        name_hash =
      some { owner := who, registrant := who,
             expiry := satAdd blockMax st.now (length cfg periods),
             deposit := 0 } ∧
    (∀ k, k ≠ name_hash →
      findKV
          (force_register cfg st true name_hash who periods).2.registrations
          k =
        findKV st.registrations k) ∧
    (force_register cfg st true name_hash who periods).2.commitments =
      st.commitments ∧
    (force_register cfg st true name_hash who periods).2.subNameRegistrations =
      st.subNameRegistrations ∧
    (force_register cfg st true name_hash who periods).2.resolvers =
      st.resolvers ∧
    (force_register cfg st true name_hash who periods).2.free = st.free ∧
    (force_register cfg st true name_hash who periods).2.reserved =
      st.reserved ∧
    (force_register cfg st true name_hash who periods).2.feeSink =
      st.feeSink := by
  have hres : force_register cfg st true name_hash who periods =
      (.ok (), { st with
        registrations := insertKV st.registrations name_hash
          { owner := who, registrant := who,
            expiry := satAdd blockMax st.now (length cfg periods),
            deposit := 0 } }) := by
    simp [force_register, forceRegisterInner, transact, do_register]
  rw [hres]
  refine ⟨rfl, by simp [findKV_insert], ?_, rfl, rfl, rfl, rfl, rfl, rfl⟩
  intro k hk
  rw [findKV_insert, if_neg (fun h : name_hash = k => hk h.symm)]

/-- C9: `transfer` fails `RegistrationNotFound` when the registration is
absent, `NotRegistrationOwner` when the caller is not the owner, and
`RegistrationExpired` when `expiry <= now`; on success it changes only the
owner field of that registration to the destination account, leaving the
registrant, expiry and deposit fields, every other registration, and every
other store unchanged. -/
theorem transfer_spec (st : State) (sender dest : AccountId)
    (name_hash : Hash32) :
    (findKV st.registrations name_hash = none →
      transfer st sender dest name_hash =
        (.error .RegistrationNotFound, st)) ∧
    (∀ r, findKV st.registrations name_hash = some r → r.owner ≠ sender →
      transfer st sender dest name_hash =
        (.error .NotRegistrationOwner, st)) ∧
    (∀ r, findKV st.registrations name_hash = some r → r.owner = sender →
      r.expiry ≤ st.now →
      transfer st sender dest name_hash =
        (.error .RegistrationExpired, st)) ∧
    (∀ r, findKV st.registrations name_hash = some r → r.owner = sender →
      r.expiry > st.now →
      (transfer st sender dest name_hash).1 = .ok () ∧
      findKV (transfer st sender dest name_hash).2.registrations name_hash =
        some { r with owner := dest } ∧
      (∀ k, k ≠ name_hash →
        findKV (transfer st sender dest name_hash).2.registrations k =
          findKV st.registrations k) ∧
      (transfer st sender dest name_hash).2.commitments = st.commitments ∧
      (transfer st sender dest name_hash).2.subNameRegistrations =
        st.subNameRegistrations ∧
      (transfer st sender dest name_hash).2.resolvers = st.resolvers ∧
      (transfer st sender dest name_hash).2.free = st.free ∧
      (transfer st sender dest name_hash).2.reserved = st.reserved ∧
      (transfer st sender dest name_hash).2.feeSink = st.feeSink ∧
      (transfer st sender dest name_hash).2.now = st.now) := by
  refine ⟨?_, ?_, ?_, ?_⟩
  · intro h
    simp [transfer, transferInner, transact, h]
  · intro r hr hown
    simp [transfer, transferInner, transact, hr, hown]
  · intro r hr hown hexp
    simp [transfer, transferInner, transact, hr, hown, Nat.not_lt.mpr hexp]
  · intro r hr hown hexp
    have hres : transfer st sender dest name_hash =
        (.ok (), { st with
          registrations :=
            insertKV st.registrations name_hash { r with owner := dest } }) := by
      simp [transfer, transferInner, transact, hr, hown, hexp]
    rw [hres]
    refine ⟨rfl, by simp [findKV_insert], ?_, rfl, rfl, rfl, rfl, rfl, rfl,
      rfl⟩
    intro k hk
    rw [findKV_insert, if_neg (fun h : name_hash = k => hk h.symm)]

/-- C8: `register_sub_name` fails `RegistrationNotFound` when the parent
registration is absent, `NotRegistrationOwner` when the caller is not the
parent's current owner, `SubNameAlreadyRegistered` when the
`(parent, labelHash)` key exists, and checks no expiry (the theorem never
assumes anything about the parent's expiry, so it also applies to an
expired parent); on success it stores a sub-registration whose owner and
registrant snapshot the parent's current owner. -/
theorem register_sub_name_spec (st : State) (sender : AccountId)
    (name_hash : Hash32) (label : List Nat) :
    (findKV st.registrations name_hash = none →
      register_sub_name st sender name_hash label =
        (.error .RegistrationNotFound, st)) ∧
    (∀ r, findKV st.registrations name_hash = some r → r.owner ≠ sender →
      register_sub_name st sender name_hash label =
        (.error .NotRegistrationOwner, st)) ∧
    (∀ r, findKV st.registrations name_hash = some r → r.owner = sender →
      (findKV st.subNameRegistrations
          (name_hash, Hash32.blakeBytes label)).isSome →
      register_sub_name st sender name_hash label =
        (.error .SubNameAlreadyRegistered, st)) ∧
    (∀ r, findKV st.registrations name_hash = some r → r.owner = sender →
      findKV st.subNameRegistrations (name_hash, Hash32.blakeBytes label) =
        none →
      (register_sub_name st sender name_hash label).1 = .ok () ∧
      findKV
          (register_sub_name st sender name_hash label).2.subNameRegistrations
          (name_hash, Hash32.blakeBytes label) =
        some { hash := generate_sub_name_hash name_hash
                 (Hash32.blakeBytes label),
               owner := r.owner, registrant := r.owner } ∧
      (register_sub_name st sender name_hash label).2.registrations =
        st.registrations ∧
      (register_sub_name st sender name_hash label).2.commitments =
        st.commitments ∧
      (register_sub_name st sender name_hash label).2.resolvers =
        st.resolvers) := by
  refine ⟨?_, ?_, ?_, ?_⟩
  · intro h
    simp [register_sub_name, registerSubNameInner, transact, h]
  · intro r hr hown
    simp [register_sub_name, registerSubNameInner, transact, hr, hown]
  · intro r hr hown hsub
    simp [register_sub_name, registerSubNameInner, do_register_sub_name,
      transact, hr, hown, hsub]
  · intro r hr hown hsub
    have hres : register_sub_name st sender name_hash label =
        (.ok (), { st with
          subNameRegistrations :=
            insertKV st.subNameRegistrations
              (name_hash, Hash32.blakeBytes label)
              { hash := generate_sub_name_hash name_hash
                  (Hash32.blakeBytes label),
                owner := r.owner, registrant := r.owner } }) := by
      simp [register_sub_name, registerSubNameInner, do_register_sub_name,
        transact, hr, hown, hsub]
    rw [hres]
    exact ⟨rfl, by simp [findKV_insert], rfl, rfl, rfl⟩

/-- C10 witness: forcibly registering `nm5` for account 7 over the live
registration owned by account 3 in `stC1` succeeds and overwrites it. -/
theorem force_register_overwrites_witness :
    shB ≠ hA ∧
    (force_register cfgA stC1 true hA 7 2).1 = .ok () ∧
    findKV (force_register cfgA stC1 true hA 7 2).2.registrations hA =
      some { owner := 7, registrant := 7, expiry := 205, deposit := 0 } ∧
    findKV (force_register cfgA stC1 true hA 7 2).2.registrations shB =
      findKV stC1.registrations shB :=
  have h := force_register_overwrites cfgA stC1 hA 7 2
  ⟨by decide, h.1, h.2.1.trans (by rfl), h.2.2.1 shB (by decide)⟩

/-- C9 witness: the owner (account 3) transfers the live registration of
`nm5` in `stC1` to account 2; only the owner field changes. -/
theorem transfer_spec_witness :
    findKV stC1.registrations hA =
      some { owner := 3, registrant := 3, expiry := 10, deposit := 0 } ∧
    (transfer stC1 3 2 hA).1 = .ok () ∧
    findKV (transfer stC1 3 2 hA).2.registrations hA =
      some { owner := 2, registrant := 3, expiry := 10, deposit := 0 } ∧
    (transfer stC1 3 2 hA).2.resolvers = stC1.resolvers :=
  have h := (transfer_spec stC1 3 2 hA).2.2.2
    { owner := 3, registrant := 3, expiry := 10, deposit := 0 }
    rfl rfl (by decide)
  ⟨rfl, h.1, h.2.1.trans (by rfl), h.2.2.2.2.2.1⟩

/-- C8 witness: the owner registers the sub-name `nm4` under the parent
`nm5` in `stExp` even though the parent registration is expired
(`expiry = 4 <= now = 5`); the sub-registration snapshots the owner. -/
theorem register_sub_name_spec_witness :
    findKV stExp.registrations hA =
      some { owner := 3, registrant := 3, expiry := 4, deposit := 0 } ∧
    (4 : BlockNumber) ≤ stExp.now ∧
    (register_sub_name stExp 3 hA nm4).1 = .ok () ∧
    findKV (register_sub_name stExp 3 hA nm4).2.subNameRegistrations
        (hA, Hash32.blakeBytes nm4) =
      some { hash := Hash32.blakeConcat hA (Hash32.blakeBytes nm4),
             owner := 3, registrant := 3 } :=
  have h := (register_sub_name_spec stExp 3 hA nm4).2.2.2
    { owner := 3, registrant := 3, expiry := 4, deposit := 0 }
    rfl rfl rfl
  ⟨rfl, by decide, h.1, h.2.1.trans (by rfl)⟩

/-- C5: `deregister` fails `RegistrationNotFound` when the registration is
absent and `RegistrationNotExpired` when `expiry > now`, and performs no
ownership check (the caller is arbitrary); on success it removes the
registration, its resolver entry, every sub-registration under the parent,
and the resolver entry of each such sub-name's stored (derived) hash, so
subsequent lookups for those keys return absent. -/
theorem deregister_spec (st : State) (sender : AccountId)
    (name_hash : Hash32) :
    (findKV st.registrations name_hash = none →
      deregister st sender name_hash = (.error .RegistrationNotFound, st)) ∧
    (∀ r, findKV st.registrations name_hash = some r → r.expiry > st.now →
      deregister st sender name_hash = (.error .RegistrationNotExpired, st)) ∧
    (∀ r, findKV st.registrations name_hash = some r → r.expiry ≤ st.now →
      (deregister st sender name_hash).1 = .ok () ∧
      findKV (deregister st sender name_hash).2.registrations name_hash =
        none ∧
      findKV (deregister st sender name_hash).2.resolvers name_hash = none ∧
      (∀ label_hash,
        findKV (deregister st sender name_hash).2.subNameRegistrations
          (name_hash, label_hash) = none) ∧
      (∀ label_hash sr,
        findKV st.subNameRegistrations (name_hash, label_hash) = some sr →
        findKV (deregister st sender name_hash).2.resolvers sr.hash =
          none) ∧
      (∀ label_hash sr,
        findKV st.subNameRegistrations (name_hash, label_hash) = some sr →
        sr.hash = generate_sub_name_hash name_hash label_hash →
        findKV (deregister st sender name_hash).2.resolvers
          (generate_sub_name_hash name_hash label_hash) = none)) := by
  refine ⟨?_, ?_, ?_⟩
  · intro h
    simp [deregister, deregisterInner, do_deregister, transact, h]
  · intro r hr hexp
    simp [deregister, deregisterInner, do_deregister, transact, hr,
      Nat.not_le.mpr hexp]
  · intro r hr hexp
    have hres : deregister st sender name_hash =
        (.ok (), { st with
          registrations := eraseKV st.registrations name_hash,
          resolvers :=
            (valuesUnder st.subNameRegistrations name_hash).foldl
              (fun rs (sr : SubNameRegistration) => eraseKV rs sr.hash)
              (eraseKV st.resolvers name_hash),
          subNameRegistrations :=
            removeUnder st.subNameRegistrations name_hash }) := by
      simp [deregister, deregisterInner, do_deregister, transact, hr, hexp]
    rw [hres]
    refine ⟨rfl, ?_, ?_, ?_, ?_, ?_⟩
    · rw [findKV_erase]
      simp
    · apply findKV_foldlErase_of_none
      rw [findKV_erase]
      simp
    · intro label_hash
      rw [findKV_removeUnder]
      simp
    · intro label_hash sr hsr
      exact findKV_foldlErase_of_mem _ _ _
        (mem_valuesUnder_of_findKV _ _ _ _ hsr)
    · intro label_hash sr hsr heq
      have := findKV_foldlErase_of_mem
        (valuesUnder st.subNameRegistrations name_hash)
        (eraseKV st.resolvers name_hash) sr
        (mem_valuesUnder_of_findKV _ _ _ _ hsr)
      rw [heq] at this
      exact this

/-- C5 witness: any caller (account 1) deregisters the expired registration
of `nm5` in `stExp`; the registration, its resolver entry, the sub-name
under it and the sub-name's resolver entry are all gone. -/
theorem deregister_spec_witness :
    findKV stExp.registrations hA =
      some { owner := 3, registrant := 3, expiry := 4, deposit := 0 } ∧
    (4 : BlockNumber) ≤ stExp.now ∧
    (deregister stExp 1 hA).1 = .ok () ∧
    findKV (deregister stExp 1 hA).2.registrations hA = none ∧
    findKV (deregister stExp 1 hA).2.resolvers hA = none ∧
    findKV (deregister stExp 1 hA).2.subNameRegistrations (hA, lhB) = none ∧
    findKV (deregister stExp 1 hA).2.resolvers shB = none :=
  have h := (deregister_spec stExp 1 hA).2.2
    { owner := 3, registrant := 3, expiry := 4, deposit := 0 } rfl (by decide)
  ⟨rfl, by decide, h.1, h.2.1, h.2.2.1, h.2.2.2.1 lhB,
    h.2.2.2.2.1 lhB { hash := shB, owner := 3, registrant := 3 } rfl⟩

/-- C7: `renew` checks neither ownership nor expiry, only existence: it
fails `RegistrationNotFound` when the registration is absent; for every
existing registration (owned by anyone, expired or live) and every caller
whose free balance covers `length_fee(periods)` it succeeds; it fails
`InsufficientBalance` exactly when the withdrawal fails; and no other
error is possible. -/
theorem renew_access (cfg : Config) (st : State) (sender : AccountId)
    (name_hash : Hash32) (periods : Nat) :
    (findKV st.registrations name_hash = none →
      renew cfg st sender name_hash periods =
        (.error .RegistrationNotFound, st)) ∧
    (∀ r, findKV st.registrations name_hash = some r →
      length_fee cfg periods ≤ getBal st.free sender →
      (renew cfg st sender name_hash periods).1 = .ok ()) ∧
    (∀ r, findKV st.registrations name_hash = some r →
      getBal st.free sender < length_fee cfg periods →
      renew cfg st sender name_hash periods =
        (.error .InsufficientBalance, st)) ∧
    (∀ e, (renew cfg st sender name_hash periods).1 = .error e →
      e = .RegistrationNotFound ∨ e = .InsufficientBalance) := by
  refine ⟨?_, ?_, ?_, ?_⟩
  · intro h
    simp [renew, renewInner, transact, h]
  · intro r hr hbal
    simp [renew, renewInner, transact, hr, withdraw, hbal, Bind.bind,
      Except.bind]
  · intro r hr hbal
    simp [renew, renewInner, transact, hr, withdraw,
      Nat.not_le.mpr hbal, Bind.bind, Except.bind]
  · intro e he
    cases hfind : findKV st.registrations name_hash with
    | none =>
      simp [renew, renewInner, transact, hfind] at he
      exact Or.inl he.symm
    | some r =>
      by_cases hb : length_fee cfg periods ≤ getBal st.free sender
      · simp [renew, renewInner, transact, hfind, withdraw, hb, Bind.bind,
          Except.bind] at he
      · simp [renew, renewInner, transact, hfind, withdraw, hb, Bind.bind,
          Except.bind] at he
        exact Or.inr he.symm

/-- C7 witness: account 1 (not the owner) renews the live registration of
`nm5` in `stC1` owned by account 3, paying the length fee of 4. -/
theorem renew_access_witness :
    findKV stC1.registrations hA =
      some { owner := 3, registrant := 3, expiry := 10, deposit := 0 } ∧
    length_fee cfgA 2 ≤ getBal stC1.free 1 ∧
    (renew cfgA stC1 1 hA 2).1 = .ok () :=
  ⟨rfl, by decide,
    (renew_access cfgA stC1 1 hA 2).2.1
      { owner := 3, registrant := 3, expiry := 10, deposit := 0 }
      rfl (by decide)⟩

/-- C4: a successful `renew` sets the new expiry to
`max(expiry, now) + length(periods)` with the pallet's saturating
arithmetic: extending from the current expiry when the lease is live
(never shortening it), and from `now` when it is already expired; the
other registration fields are untouched. -/
theorem renew_expiry (cfg : Config) (st : State) (sender : AccountId)
    (name_hash : Hash32) (periods : Nat) (r : Registration)
    (hr : findKV st.registrations name_hash = some r)
    (hbound : r.expiry ≤ blockMax)
    (hok : (renew cfg st sender name_hash periods).1 = .ok ()) :
    ∃ r', findKV (renew cfg st sender name_hash periods).2.registrations
        name_hash = some r' ∧
      r'.owner = r.owner ∧
      r'.registrant = r.registrant ∧
      r'.deposit = r.deposit ∧
      r'.expiry =
        satAdd blockMax (max r.expiry st.now) (length cfg periods) ∧
      (r.expiry > st.now →
        r'.expiry = satAdd blockMax r.expiry (length cfg periods) ∧
        r.expiry ≤ r'.expiry) ∧
      (r.expiry ≤ st.now →
        r'.expiry = satAdd blockMax st.now (length cfg periods)) := by
  by_cases hb : length_fee cfg periods ≤ getBal st.free sender
  · by_cases hcmp : r.expiry > st.now
    · have hres : (renew cfg st sender name_hash periods).2.registrations =
          insertKV st.registrations name_hash
            { r with
              expiry := satAdd blockMax r.expiry (length cfg periods) } := by
        simp [renew, renewInner, transact, hr, withdraw, hb, hcmp,
          Bind.bind, Except.bind, onUnbalanced]
      refine ⟨{ r with
          expiry := satAdd blockMax r.expiry (length cfg periods) },
        by rw [hres, findKV_insert]; simp, rfl, rfl, rfl, ?_, ?_, ?_⟩
      · rw [Nat.max_eq_left (Nat.le_of_lt hcmp)]
      · intro _
        refine ⟨rfl, ?_⟩
        show r.expiry ≤ min (r.expiry + length cfg periods) blockMax
        exact le_min (Nat.le_add_right _ _) hbound
      · intro hle
        exact absurd hcmp (Nat.not_lt.mpr hle)
    · have hres : (renew cfg st sender name_hash periods).2.registrations =
          insertKV st.registrations name_hash
            { r with
              expiry := satAdd blockMax st.now (length cfg periods) } := by
        simp [renew, renewInner, transact, hr, withdraw, hb, hcmp,
          Bind.bind, Except.bind, onUnbalanced]
      refine ⟨{ r with
          expiry := satAdd blockMax st.now (length cfg periods) },
        by rw [hres, findKV_insert]; simp, rfl, rfl, rfl, ?_, ?_, ?_⟩
      · rw [Nat.max_eq_right (Nat.not_lt.mp hcmp)]
      · intro hgt
        exact absurd hgt hcmp
      · intro _
        rfl
  · simp [renew, renewInner, transact, hr, withdraw, hb, Bind.bind,
      Except.bind] at hok

/-- C4 witness: account 1 renews the live registration of `nm5` in `stC1`
(expiry 10, now 5) for 2 periods of 100 blocks; the new expiry is 210. -/
theorem renew_expiry_witness :
    findKV stC1.registrations hA =
      some { owner := 3, registrant := 3, expiry := 10, deposit := 0 } ∧
    (10 : BlockNumber) ≤ blockMax ∧
    (renew cfgA stC1 1 hA 2).1 = .ok () ∧
    ∃ r', findKV (renew cfgA stC1 1 hA 2).2.registrations hA = some r' ∧
      r'.expiry = 210 :=
  have h := renew_expiry cfgA stC1 1 hA 2
    { owner := 3, registrant := 3, expiry := 10, deposit := 0 }
    rfl (by decide) (by rfl)
  ⟨rfl, by decide, by rfl,
    h.elim fun r' hp => ⟨r', hp.1, hp.2.2.2.2.1.trans (by rfl)⟩⟩

/-- C1 counterexample: in `stC1` a commitment for `(nm5, 42)` exists,
`periods = 2` exceeds the minimum, and an unexpired registration of `nm5`
exists; the claim says this reveal returns without an error, but it
returns `AlreadyRegistered` (and, the call being all-or-nothing, the
commitment is still present afterwards rather than consumed). -/
theorem reveal_unavailable_counterexample :
    findKV stC1.commitments (Hash32.blakePair nm5 42) =
      some { who := 2, when := 0, deposit := 5 } ∧
    2 > cfgA.minimumRegistrationPeriods ∧
    findKV stC1.registrations (Hash32.blakeBytes nm5) =
      some { owner := 3, registrant := 3, expiry := 10, deposit := 0 } ∧
    (10 : BlockNumber) > stC1.now ∧
    reveal cfgA stC1 1 nm5 42 2 = (.error .AlreadyRegistered, stC1) ∧
    findKV (reveal cfgA stC1 1 nm5 42 2).2.commitments
        (Hash32.blakePair nm5 42) =
      some { who := 2, when := 0, deposit := 5 } :=
  ⟨rfl, by decide, rfl, by decide, rfl, rfl⟩

/-- C1 (amended): when a commitment exists, `periods` exceeds the minimum,
and an unexpired registration already occupies the name, `reveal` fails
with `AlreadyRegistered` and leaves every store unchanged — in particular
the commitment is not consumed. -/
theorem reveal_unavailable_already_registered (cfg : Config) (st : State)
    (sender : AccountId) (name : List Nat) (secret periods : Nat)
    (c : Commitment) (r : Registration)
    (hc : findKV st.commitments (Hash32.blakePair name secret) = some c)
    (hp : periods > cfg.minimumRegistrationPeriods)
    (hr : findKV st.registrations (Hash32.blakeBytes name) = some r)
    (hx : r.expiry > st.now) :
    reveal cfg st sender name secret periods =
      (.error .AlreadyRegistered, st) := by
  simp [reveal, revealInner, transact, hc, hp, is_available, hr,
    Nat.not_le.mpr hx]

/-- C1 witness for the amended statement, at the `stC1` instance. -/
theorem reveal_unavailable_already_registered_witness :
    reveal cfgA stC1 1 nm5 42 2 = (.error .AlreadyRegistered, stC1) :=
  reveal_unavailable_already_registered cfgA stC1 1 nm5 42 2
    { who := 2, when := 0, deposit := 5 }
    { owner := 3, registrant := 3, expiry := 10, deposit := 0 }
    rfl (by decide) rfl (by decide)

/-- C2: every public operation is all-or-nothing: whenever a dispatch
returns an error, the whole state (all four stores and the balances) is
exactly as before the call; in particular a reveal failing
`RegistrationPeriodTooShort` leaves the commitment present. -/
theorem dispatch_all_or_nothing :
    (∀ (cfg : Config) (st : State) (sender : AccountId) (c : Call)
        (e : Error),
      (dispatch cfg st sender c).1 = .error e →
      (dispatch cfg st sender c).2 = st) ∧
    (∀ (cfg : Config) (st : State) (sender : AccountId) (name : List Nat)
        (secret periods : Nat) (cm : Commitment),
      findKV st.commitments (Hash32.blakePair name secret) = some cm →
      periods ≤ cfg.minimumRegistrationPeriods →
      reveal cfg st sender name secret periods =
        (.error .RegistrationPeriodTooShort, st)) := by
  constructor
  · intro cfg st sender c e he
    cases c <;> exact transact_error_eq _ _ _ he
  · intro cfg st sender name secret periods cm hc hp
    simp [reveal, revealInner, transact, hc, Nat.not_lt.mpr hp]

/-- C2 witness: a transfer by a non-owner fails and leaves `stC1` intact,
and a reveal with `periods = 1` (not above the minimum 1) fails
`RegistrationPeriodTooShort` with the commitment still present. -/
theorem dispatch_all_or_nothing_witness :
    (dispatch cfgA stC1 1 (Call.transfer 2 hA)).1 =
      .error .NotRegistrationOwner ∧
    (dispatch cfgA stC1 1 (Call.transfer 2 hA)).2 = stC1 ∧
    findKV stC1.commitments (Hash32.blakePair nm5 42) =
      some { who := 2, when := 0, deposit := 5 } ∧
    (1 : Nat) ≤ cfgA.minimumRegistrationPeriods ∧
    reveal cfgA stC1 1 nm5 42 1 =
      (.error .RegistrationPeriodTooShort, stC1) :=
  ⟨rfl,
    dispatch_all_or_nothing.1 cfgA stC1 1 (Call.transfer 2 hA)
      .NotRegistrationOwner rfl,
    rfl, by decide,
    dispatch_all_or_nothing.2 cfgA stC1 1 nm5 42 1
      { who := 2, when := 0, deposit := 5 } rfl (by decide)⟩

theorem reveal_ok_commitments (cfg : Config) (st : State)
    (sender : AccountId) (name : List Nat) (secret periods : Nat)
    (hok : (reveal cfg st sender name secret periods).1 = .ok ()) :
    (reveal cfg st sender name secret periods).2.commitments =
      eraseKV st.commitments (Hash32.blakePair name secret) := by
  cases hc : findKV st.commitments (Hash32.blakePair name secret) with
  | none => simp [reveal, revealInner, transact, hc] at hok
  | some cm =>
    by_cases hp : periods > cfg.minimumRegistrationPeriods
    · cases hfind : findKV st.registrations (Hash32.blakeBytes name) with
      | none =>
        by_cases hb :
            registration_fee cfg name periods ≤ getBal st.free sender
        · simp [reveal, revealInner, transact, hc, hp, is_available, hfind,
            withdraw, hb, Bind.bind, Except.bind, onUnbalanced, do_register]
        · simp [reveal, revealInner, transact, hc, hp, is_available, hfind,
            withdraw, hb, Bind.bind, Except.bind] at hok
      | some r2 =>
        by_cases hexp : r2.expiry ≤ st.now
        · by_cases hb :
              registration_fee cfg name periods ≤ getBal st.free sender
          · simp [reveal, revealInner, transact, hc, hp, is_available,
              hfind, hexp, withdraw, hb, Bind.bind, Except.bind,
              onUnbalanced, do_register]
          · simp [reveal, revealInner, transact, hc, hp, is_available,
              hfind, hexp, withdraw, hb, Bind.bind, Except.bind] at hok
        · simp [reveal, revealInner, transact, hc, hp, is_available, hfind,
            hexp] at hok
    · simp [reveal, revealInner, transact, hc, hp] at hok

/-- C3: a reveal that returns successfully has consumed the commitment:
the commitment keyed by `blake2_256((name, secret).encode())` is absent
afterwards, and a second reveal with the same `(name, secret)` — by any
sender and any period count — fails `CommitmentNotFound`. -/
theorem reveal_consumes_commitment (cfg : Config) (st : State)
    (sender sender2 : AccountId) (name : List Nat)
    (secret periods periods2 : Nat)
    (hok : (reveal cfg st sender name secret periods).1 = .ok ()) :
    findKV (reveal cfg st sender name secret periods).2.commitments
      (Hash32.blakePair name secret) = none ∧
    (reveal cfg (reveal cfg st sender name secret periods).2 sender2 name
      secret periods2).1 = .error .CommitmentNotFound := by
  have hcomm := reveal_ok_commitments cfg st sender name secret periods hok
  have hnone : findKV
      (reveal cfg st sender name secret periods).2.commitments
      (Hash32.blakePair name secret) = none := by
    rw [hcomm, findKV_erase]
    simp
  refine ⟨hnone, ?_⟩
  obtain ⟨st2, hst2⟩ :
      ∃ st2, (reveal cfg st sender name secret periods).2 = st2 := ⟨_, rfl⟩
  rw [hst2] at hnone ⊢
  simp [reveal, revealInner, transact, hnone]

/-- C3 witness: in `stAvail` the reveal of `(nm5, 42)` succeeds and
registers the name; the commitment is gone and a second reveal fails
`CommitmentNotFound`. -/
theorem reveal_consumes_commitment_witness :
    (reveal cfgA stAvail 1 nm5 42 2).1 = .ok () ∧
    findKV (reveal cfgA stAvail 1 nm5 42 2).2.commitments
      (Hash32.blakePair nm5 42) = none ∧
    (reveal cfgA (reveal cfgA stAvail 1 nm5 42 2).2 9 nm5 42 3).1 =
      .error .CommitmentNotFound :=
  have h := reveal_consumes_commitment cfgA stAvail 1 9 nm5 42 2 3 (by rfl)
  ⟨by rfl, h.1, h.2⟩

/-- C6: for any configuration whose tier fees are ordered as the spec's
fee-monotonicity property implies (`TierThreeLetters >= TierFourLetters >=
TierDefault`, with the largest tier fee plus the length fee below the
sentinel), `registration_fee` is non-increasing in the name's byte length
for lengths at least 3, and every name of length under 3 pays strictly
more than any name of length at least 3 with the same periods. -/
theorem registration_fee_tiers (cfg : Config) (periods : Nat)
    (h43 : cfg.tierFourLetters ≤ cfg.tierThreeLetters)
    (h54 : cfg.tierDefault ≤ cfg.tierFourLetters)
    (hb : cfg.tierThreeLetters + length_fee cfg periods < balanceMax) :
    (∀ n1 n2 : List Nat, 3 ≤ n1.length → n1.length ≤ n2.length →
      registration_fee cfg n2 periods ≤ registration_fee cfg n1 periods) ∧
    (∀ ns nv : List Nat, ns.length < 3 → 3 ≤ nv.length →
      registration_fee cfg nv periods < registration_fee cfg ns periods) := by
  constructor
  · intro n1 n2 h1 h12
    simp only [registration_fee, satAdd]
    rw [if_neg (Nat.not_lt.mpr h1),
      if_neg (Nat.not_lt.mpr (le_trans h1 h12))]
    refine min_le_min (Nat.add_le_add_right ?_ _) (le_refl _)
    by_cases e13 : n1.length = 3
    · rw [if_pos e13]
      by_cases e23 : n2.length = 3
      · rw [if_pos e23]
      · rw [if_neg e23]
        by_cases e24 : n2.length = 4
        · rw [if_pos e24]
          exact h43
        · rw [if_neg e24]
          exact le_trans h54 h43
    · rw [if_neg e13]
      by_cases e14 : n1.length = 4
      · rw [if_pos e14]
        have e23 : ¬ n2.length = 3 := by omega
        rw [if_neg e23]
        by_cases e24 : n2.length = 4
        · rw [if_pos e24]
        · rw [if_neg e24]
          exact h54
      · rw [if_neg e14]
        have e23 : ¬ n2.length = 3 := by omega
        have e24 : ¬ n2.length = 4 := by omega
        rw [if_neg e23, if_neg e24]
  · intro ns nv hs hv
    simp only [registration_fee, satAdd]
    rw [if_pos hs, if_neg (Nat.not_lt.mpr hv)]
    rw [Nat.min_eq_right (Nat.le_add_right _ _)]
    have htv : (if nv.length = 3 then cfg.tierThreeLetters
        else if nv.length = 4 then cfg.tierFourLetters
        else cfg.tierDefault) ≤ cfg.tierThreeLetters := by
      by_cases e3 : nv.length = 3
      · rw [if_pos e3]
      · rw [if_neg e3]
        by_cases e4 : nv.length = 4
        · rw [if_pos e4]
          exact h43
        · rw [if_neg e4]
          exact le_trans h54 h43
    exact lt_of_le_of_lt (Nat.min_le_left _ _)
      (lt_of_le_of_lt (Nat.add_le_add_right htv _) hb)

/-- C6 witness: with `cfgA` (tiers 30, 20, 10 and fee-per-period 2), at
`periods = 2`, the fee is non-increasing across lengths 3, 4, 5 and a
2-byte name pays strictly more than a 3-byte name. -/
theorem registration_fee_tiers_witness :
    cfgA.tierFourLetters ≤ cfgA.tierThreeLetters ∧
    cfgA.tierDefault ≤ cfgA.tierFourLetters ∧
    cfgA.tierThreeLetters + length_fee cfgA 2 < balanceMax ∧
    registration_fee cfgA nm5 2 ≤ registration_fee cfgA nm4 2 ∧
    registration_fee cfgA nm4 2 ≤ registration_fee cfgA nm3 2 ∧
    registration_fee cfgA nm3 2 < registration_fee cfgA nm2 2 :=
  have h := registration_fee_tiers cfgA 2 (by decide) (by decide)
    (by decide)
  ⟨by decide, by decide, by decide,
    h.1 nm4 nm5 (by decide) (by decide),
    h.1 nm3 nm4 (by decide) (by decide),
    h.2 nm2 nm3 (by decide) (by decide)⟩

end NameService
